import Mathlib

/-!
Shallow embedding of the two scanner scripts of the posthuman-app repository
(`src/find_addr.py` and `src/find_marketplace.py`) and proofs about the
candidate generation, response classification, search-loop and pacing
behavior described by the specification.

The HTTP transport and the JSON parser are external collaborators (spec §1);
they are modelled as explicit inputs: a `Transport` value is the outcome of
one curl subprocess call, and a `ScanResp` value is the combined outcome of
the contracts-list request and of `json.loads` on its body.
-/

set_option maxRecDepth 100000

namespace PosthumanApp

/-- Python substring containment `needle in hay` on `str` operands
(find_addr.py line 20, find_marketplace.py line 33). -/
def pyIn (needle hay : String) : Bool := decide (needle.toList <:+: hay.toList)

/-- The bech32 charset iterated by find_addr.py (line 7). -/
def charset : String := "qpzry9x8gf2tvdw0s3jn54khce6mua7l"

/-- First fixed address part, `base_addr_parts[0]` (find_addr.py line 8). -/
def base0 : String := "stars1fvhcnyddukcqf87l2u9z6f"

/-- Second fixed address part, `base_addr_parts[1]` (find_addr.py line 8). -/
def base1 : String := "xm8e9gnv7qusmdnhaq363wwr5dapq2y05v9"

/-- The `base_addr_parts` list of find_addr.py line 8. -/
def base_addr_parts : List String := [base0, base1]

/-- Candidate address built by check_address (find_addr.py line 11):
`base_addr_parts[0] + char + base_addr_parts[1]`. -/
def mkAddr (c : Char) : String := base0 ++ String.singleton c ++ base1

/-- Smart-query URL for a contract address (find_addr.py line 14,
find_marketplace.py line 28); the trailing path segment is the base64
encoding of the constant config query. -/
def smartUrl (addr : String) : String :=
  "https://rest.stargaze-apis.com/cosmwasm/wasm/v1/contract/" ++ addr ++
    "/smart/eyJjb25maWciOnt9fQ=="

/-- Contracts-by-code URL (find_marketplace.py line 10). -/
def listUrl (codeId : Nat) : String :=
  "https://rest.stargaze-apis.com/cosmwasm/wasm/v1/code/" ++ toString codeId ++
    "/contracts?pagination.limit=1"

/-- Outcome of one curl subprocess call: either the call raises inside the
`try` block, or it completes with the captured stdout text.  A curl that
fails at transport level without raising still completes, with empty
stdout. -/
inductive Transport where
  | exn
  | ok (stdout : String)

/-- Error marker tested by check_address (find_addr.py line 20). -/
def bech32Err : String := "decoding bech32 failed"

/-- Classification made by check_address (find_addr.py lines 17-26): true
(match reported, loop breaks) iff the call completed and its stdout does not
contain the bech32 error marker; a raised exception is caught and yields
false. -/
def check_address : Transport → Bool
  | .exn => false
  | .ok body => ! pyIn bech32Err body

/-- Classification made by check_contract (find_marketplace.py lines 25-36):
reports a hit iff stdout contains the substring "data"; a raised exception
is caught and ignored. -/
def check_contract : Transport → Bool
  | .exn => false
  | .ok body => pyIn ("data") body

/-- The module-level loop of find_addr.py (lines 29-31): try each charset
character in order and stop at the first true from check_address.  Returns
the terminal result (`some addr` when found, `none` when the charset is
exhausted) together with the list of characters actually classified.
`env c` is the transport outcome of the smart query for candidate
`mkAddr c`. -/
def addrLoop (env : Char → Transport) : List Char → Option String × List Char
  | [] => (none, [])
  | c :: cs =>
    if check_address (env c) then (some (mkAddr c), [c])
    else
      match addrLoop env cs with
      | (r, tr) => (r, c :: tr)

/-- Combined outcome of the contracts-list request and of `json.loads` in
scan_code_id (find_marketplace.py lines 14-16): the subprocess may raise,
the body may fail to parse, or it parses to a mapping whose
`data.get("contracts", [])` value is a list of addresses. -/
inductive ScanResp where
  | exn
  | badJson (stdout : String)
  | parsed (contracts : List String)

/-- Contracts list obtained from a scan response; empty when the request or
the parse failed, since the exception handler then skips the code id. -/
def contractsOf : ScanResp → List String
  | .exn => []
  | .badJson _ => []
  | .parsed cs => cs

/-- Data flow of scan_code_id (find_marketplace.py lines 6-23): the contract
address passed on to check_contract, if any — the head of the contracts
list; errors are caught, printed and yield none. -/
def scan_code_id (codeId : Nat) (resp : ScanResp) : Option String :=
  match codeId, resp with
  | _, .exn => none
  | _, .badJson _ => none
  | _, .parsed contracts => contracts.head?

/-- Transport environment for one marketplace scan run: outcome of the
contracts-list request per code id, and of the smart query per contract
address. -/
structure ScanEnv where
  list : Nat → ScanResp
  smart : String → Transport

/-- One iteration of the find_marketplace.py loop for a code id: the queried
contract (if any) and whether check_contract classified it as a hit. -/
def scanStep (env : ScanEnv) (i : Nat) : Option String × Bool :=
  match scan_code_id i (env.list i) with
  | none => (none, false)
  | some addr => (some addr, check_contract (env.smart addr))

/-- Code ids scanned by the module-level loop `range(1, 100)` of
find_marketplace.py (line 41). -/
def codeIdRange : List Nat := List.range' 1 99

/-- The module-level loop of find_marketplace.py (lines 41-43): every code
id in the range is scanned unconditionally; the trace records each scanned
id with its queried contract and hit flag. -/
def marketplaceRun (env : ScanEnv) : List (Nat × Option String × Bool) :=
  codeIdRange.map (fun i => (i, scanStep env i))

/-- Externally visible actions of the numeric scanner: an HTTP request to a
URL, or a sleep of the given number of milliseconds (`time.sleep(0.5)` is
500 ms). -/
inductive Event where
  | request (url : String)
  | sleep (ms : Nat)

/-- Requests issued by one scan_code_id call (find_marketplace.py
lines 6-23): the contracts-list request, then — when a contract address
comes back — the smart query issued by check_contract, with no delay in
between. -/
def scanEvents (codeId : Nat) (resp : ScanResp) : List Event :=
  Event.request (listUrl codeId) ::
    match resp with
    | .exn => []
    | .badJson _ => []
    | .parsed [] => []
    | .parsed (addr :: _) => [Event.request (smartUrl addr)]

/-- Event trace of the find_marketplace.py loop over a list of code ids:
each iteration scans one id and then sleeps 500 ms (line 43). -/
def runEvents (env : Nat → ScanResp) : List Nat → List Event
  | [] => []
  | i :: is => scanEvents i (env i) ++ [Event.sleep 500] ++ runEvents env is

/-- Full event trace of find_marketplace.py (lines 41-43). -/
def marketplaceEvents (env : Nat → ScanResp) : List Event :=
  runEvents env codeIdRange

/-- Pacing automaton: after a request, at least `d` ms of accumulated sleep
must pass before the next request.  State: whether a request has been seen,
and the sleep accumulated since the last request; `none` means the pacing
requirement has already been violated. -/
def paceStep (d : Nat) : Option (Bool × Nat) → Event → Option (Bool × Nat)
  | none, _ => none
  | some (seen, acc), .sleep m => some (seen, acc + m)
  | some (seen, acc), .request _ => if seen = true ∧ acc < d then none else some (true, 0)

/-- A trace honors a minimum inter-request delay of `d` ms iff the pacing
automaton never fails on it. -/
def minDelayHonored (d : Nat) (evs : List Event) : Bool :=
  (evs.foldl (paceStep d) (some (false, 0))).isSome

/-- ClassificationOutcome of spec §3. -/
inductive Outcome where
  | matched (payload : String)
  | noMatch
  | invalid (reason : String)
  | transportError
deriving DecidableEq

/-- Modelled from the spec: the three-step response classification rule of
§4.2 (bech32 error marker ⇒ Invalid; else a body parsing as a mapping with
top-level key `data` ⇒ Match; else NoMatch).  JSON parsing is an external
black box (spec §1), so the parse outcome is an explicit input: `some keys`
when the body parses as a mapping with the given top-level keys, `none`
when it does not parse as a mapping. -/
def specClassify (body : String) (parsed : Option (List String)) : Outcome :=
  if pyIn bech32Err body then .invalid body
  else
    match parsed with
    | some keys => if keys.contains ("data") then .matched body else .noMatch
    | none => .noMatch

/-- Modelled from the spec: the numeric-enumeration Candidate Source of §4.1
— the integers from `start` to `stop` inclusive, stride `step`.  The source
code fixes the instance (start, stop, step) = (1, 99, 1) via `range(1, 100)`
(find_marketplace.py line 41). -/
def numericIds (start stop step : Nat) : List Nat :=
  List.range' start ((stop + step - start) / step) step

/-- Modelled from the spec: each numeric candidate rendered as its canonical
decimal string (§4.1). -/
def numericCandidates (start stop step : Nat) : List String :=
  (numericIds start stop step).map (fun n => toString n)

/-- The candidate list of find_addr.py: one candidate per charset character,
in charset order (lines 29-31, with line 11 for the shape). -/
def addrCandidates (pre suf : String) (cs : List Char) : List String :=
  cs.map (fun c => pre ++ String.singleton c ++ suf)

/-- Scan environment in which code id 1 resolves to a contract whose config
response contains "data" (a hit) and every other request raises. -/
def exListEnv : Nat → ScanResp := fun i => if i = 1 then .parsed [("addrA")] else .exn

/-- Smart-query environment answering every contract query with a body that
contains the substring "data". -/
def exSmartEnv : String → Transport := fun _ => .ok ("found data here")

/-- Concrete scan environment used for counterexamples. -/
def exScanEnv : ScanEnv := ⟨exListEnv, exSmartEnv⟩

/-! Helper lemmas about the two loops. -/

theorem addrLoop_all_false (env : Char → Transport) :
    ∀ l : List Char, (∀ c ∈ l, check_address (env c) = false) →
      addrLoop env l = (none, l) := by
  intro l
  induction l with
  | nil => intro _; rfl
  | cons c cs ih =>
    intro h
    have hc : check_address (env c) = false := h c (List.mem_cons_self c cs)
    have ihs := ih (fun x hx => h x (List.mem_cons_of_mem c hx))
    simp [addrLoop, hc, ihs]

theorem addrLoop_first_match (env : Char → Transport) (l1 l2 : List Char) (c : Char)
    (h1 : ∀ x ∈ l1, check_address (env x) = false)
    (hc : check_address (env c) = true) :
    addrLoop env (l1 ++ c :: l2) = (some (mkAddr c), l1 ++ [c]) := by
  induction l1 with
  | nil => simp [addrLoop, hc]
  | cons x xs ih =>
    have hx : check_address (env x) = false := h1 x (List.mem_cons_self x xs)
    have ihs := ih (fun y hy => h1 y (List.mem_cons_of_mem x hy))
    simp [addrLoop, hx, ihs]

theorem marketplaceRun_ids (env : ScanEnv) :
    (marketplaceRun env).map Prod.fst = codeIdRange := by
  simp [marketplaceRun, List.map_map, Function.comp_def]

/-- C6: if the classifier rejects every candidate, the address loop runs
through the whole charset, classifies each character exactly once, and
terminates exhausted (`none`); the numeric scanner always scans every code
id of the range exactly once (the range has no duplicates). -/
theorem exhaustion_when_no_match (env : Char → Transport) (menv : ScanEnv)
    (h : ∀ c ∈ charset.toList, check_address (env c) = false) :
    addrLoop env charset.toList = (none, charset.toList)
    ∧ (marketplaceRun menv).map Prod.fst = codeIdRange
    ∧ codeIdRange.Nodup :=
  ⟨addrLoop_all_false env charset.toList h, marketplaceRun_ids menv, by decide⟩

/-- Witness for C6 at the concrete all-errors environment. -/
theorem exhaustion_when_no_match_witness :
    addrLoop (fun _ => Transport.exn) charset.toList = (none, charset.toList) :=
  (exhaustion_when_no_match (fun _ => Transport.exn) exScanEnv (fun _ _ => rfl)).1

/-- C3 counterexample: with every transport call raising, the address loop
classifies all 32 candidates — far more than threshold + 1 for any small
threshold such as 3 — and terminates by exhaustion, never by an abort. -/
theorem threshold_abort_counterexample :
    (addrLoop (fun _ => Transport.exn) charset.toList).1 = none
    ∧ (addrLoop (fun _ => Transport.exn) charset.toList).2.length = 32
    ∧ 3 + 1 < (addrLoop (fun _ => Transport.exn) charset.toList).2.length := by
  decide

/-- C3 amended: the scripts have no consecutive-transport-error threshold
and no Aborted state: under an all-errors transport both loops silently
swallow every error, classify every candidate, and terminate only by
exhaustion. -/
theorem transport_errors_never_abort (env : Char → Transport) (menv : ScanEnv)
    (h : ∀ c, env c = Transport.exn) (hm : ∀ i, menv.list i = ScanResp.exn) :
    addrLoop env charset.toList = (none, charset.toList)
    ∧ (addrLoop env charset.toList).2.length = 32
    ∧ (marketplaceRun menv).length = 99
    ∧ ∀ i ∈ codeIdRange, scanStep menv i = (none, false) := by
  have h1 : addrLoop env charset.toList = (none, charset.toList) :=
    addrLoop_all_false env charset.toList (fun c _ => by rw [h c]; rfl)
  refine ⟨h1, by rw [h1]; decide, by simp [marketplaceRun, codeIdRange], ?_⟩
  intro i _
  simp [scanStep, hm i, scan_code_id]

/-- Witness for C3 (amended) at the concrete all-errors environments. -/
theorem transport_errors_never_abort_witness :
    addrLoop (fun _ => Transport.exn) charset.toList = (none, charset.toList)
    ∧ (marketplaceRun ⟨fun _ => ScanResp.exn, fun _ => Transport.exn⟩).length = 99 :=
  ⟨(transport_errors_never_abort (fun _ => Transport.exn)
      ⟨fun _ => ScanResp.exn, fun _ => Transport.exn⟩ (fun _ => rfl) (fun _ => rfl)).1,
   (transport_errors_never_abort (fun _ => Transport.exn)
      ⟨fun _ => ScanResp.exn, fun _ => Transport.exn⟩ (fun _ => rfl) (fun _ => rfl)).2.2.1⟩

/-- C2 counterexample: in the numeric scanner, code id 1 is classified as a
hit (its contract's config body contains "data"), yet code id 2 — and the
whole range — is still scanned afterwards: the run does not stop at the
first match. -/
theorem first_match_counterexample :
    (scanStep exScanEnv 1).2 = true
    ∧ 2 ∈ (marketplaceRun exScanEnv).map Prod.fst
    ∧ (marketplaceRun exScanEnv).map Prod.fst = codeIdRange := by
  decide

/-- C2 amended: first-match-wins holds for the address loop only — it stops
at the first character classified true, having classified exactly the
preceding characters and the match — while the numeric scanner scans every
code id of the range regardless of any hit. -/
theorem first_match_wins_addr_only (env : Char → Transport) (menv : ScanEnv)
    (l1 l2 : List Char) (c : Char)
    (h1 : ∀ x ∈ l1, check_address (env x) = false)
    (hc : check_address (env c) = true) :
    addrLoop env (l1 ++ c :: l2) = (some (mkAddr c), l1 ++ [c])
    ∧ (marketplaceRun menv).map Prod.fst = codeIdRange :=
  ⟨addrLoop_first_match env l1 l2 c h1 hc, marketplaceRun_ids menv⟩

/-- Witness for C2 (amended) at a concrete environment. -/
theorem first_match_wins_addr_only_witness :
    addrLoop (fun _ => Transport.ok ("")) ([] ++ 'q' :: []) =
      (some (mkAddr 'q'), [] ++ ['q']) :=
  (first_match_wins_addr_only (fun _ => Transport.ok ("")) exScanEnv [] [] 'q'
    (fun x hx => absurd hx (List.not_mem_nil x)) (by decide)).1

/-- C1 counterexample: the code does not follow the three-step rule.  The
body "x" has no bech32 marker and does not parse as a mapping, so the rule
classifies it NoMatch — yet check_address treats it as a match; the body
"found data here" likewise does not parse as a mapping, yet check_contract
reports a hit because "data" occurs as a raw substring. -/
theorem three_step_rule_counterexample :
    specClassify ("x") none = Outcome.noMatch
    ∧ check_address (Transport.ok ("x")) = true
    ∧ specClassify ("found data here") none = Outcome.noMatch
    ∧ check_contract (Transport.ok ("found data here")) = true := by
  decide

/-- C1 amended: classification is a pure substring test on the body, with no
parse step: address mode reports a match exactly when the bech32 error
marker is absent (no `data` check at all), and scan mode reports a hit
exactly when "data" occurs as a substring (no mapping parse). -/
theorem classification_by_substring_only (body : String) :
    (check_address (Transport.ok body) = true ↔
      ¬ bech32Err.toList <:+: body.toList)
    ∧ (check_contract (Transport.ok body) = true ↔
      ("data").toList <:+: body.toList) := by
  constructor
  · simp [check_address, pyIn]
  · simp [check_contract, pyIn]

/-- Witness for C1 (amended) at a concrete body. -/
theorem classification_by_substring_only_witness :
    check_contract (Transport.ok ("found data elsewhere")) = true :=
  (classification_by_substring_only ("found data elsewhere")).2.mpr (by decide)

/-- C9: in address mode any completed response whose body lacks the bech32
error marker — the empty body included — is reported as a match (true),
which stops the loop at that candidate; the classification is a function of
the substring test alone, with no parsing and no `data` check. -/
theorem addr_mode_match_iff_no_bech32_marker (body : String) :
    (check_address (Transport.ok body) = true ↔
      ¬ bech32Err.toList <:+: body.toList)
    ∧ check_address (Transport.ok ("")) = true
    ∧ (∀ b : String, check_address (Transport.ok b) = ! pyIn bech32Err b)
    ∧ (∀ (env : Char → Transport) (c : Char) (cs : List Char),
        check_address (env c) = true →
        addrLoop env (c :: cs) = (some (mkAddr c), [c])) := by
  refine ⟨?_, by decide, fun b => rfl, ?_⟩
  · simp [check_address, pyIn]
  · intro env c cs hc
    simp [addrLoop, hc]

/-- Witness for C9 at concrete inputs. -/
theorem addr_mode_match_witness :
    check_address (Transport.ok ("")) = true
    ∧ addrLoop (fun _ => Transport.ok ("hello")) ('z' :: []) =
        (some (mkAddr 'z'), ['z']) :=
  ⟨(addr_mode_match_iff_no_bech32_marker ("")).2.1,
   (addr_mode_match_iff_no_bech32_marker ("")).2.2.2
     (fun _ => Transport.ok ("hello")) 'z' [] (by decide)⟩

/-- C7: every failure is handled — a raised transport call classifies as
false (non-match) in both verifiers, an unparseable or failed contracts-list
response makes scan_code_id skip the contract query, the address loop moves
past a failed candidate to the next one, and the numeric scanner still scans
the full range. -/
theorem verifier_totality (i : Nat) (s : String) (env : Char → Transport)
    (c : Char) (cs : List Char) (menv : ScanEnv) :
    check_address Transport.exn = false
    ∧ check_contract Transport.exn = false
    ∧ scan_code_id i ScanResp.exn = none
    ∧ scan_code_id i (ScanResp.badJson s) = none
    ∧ (env c = Transport.exn →
        addrLoop env (c :: cs) =
          ((addrLoop env cs).1, c :: (addrLoop env cs).2))
    ∧ (marketplaceRun menv).map Prod.fst = codeIdRange := by
  refine ⟨rfl, rfl, rfl, rfl, ?_, marketplaceRun_ids menv⟩
  intro hc
  simp [addrLoop, hc, check_address]

/-- Witness for C7 at concrete inputs. -/
theorem verifier_totality_witness :
    addrLoop (fun _ => Transport.exn) ('q' :: []) =
      ((addrLoop (fun _ => Transport.exn) []).1,
        'q' :: (addrLoop (fun _ => Transport.exn) []).2) :=
  (verifier_totality 1 ("x") (fun _ => Transport.exn) 'q' [] exScanEnv).2.2.2.2.1 rfl

theorem mkCandidate_inj (pre suf : String) :
    Function.Injective (fun c => pre ++ String.singleton c ++ suf) := by
  intro a b h
  have hd : (pre.data ++ [a]) ++ suf.data = (pre.data ++ [b]) ++ suf.data :=
    congrArg String.data h
  have hd2 : pre.data ++ [a] = pre.data ++ [b] := List.append_cancel_right hd
  have hd3 : [a] = [b] := List.append_cancel_left hd2
  simpa using hd3

/-- C4: the character-completion source yields one candidate per charset
symbol, in charset order, each of the shape before-part ++ symbol ++
after-part; distinct symbols give distinct candidates; the fixed bech32
charset has 32 distinct symbols and yields 32 candidates. -/
theorem char_completion_source_spec (pre suf : String) (cs : List Char)
    (h : cs.Nodup) :
    (addrCandidates pre suf cs).length = cs.length
    ∧ (addrCandidates pre suf cs).Nodup
    ∧ (∀ i : Nat, (addrCandidates pre suf cs)[i]? =
        (cs[i]?).map (fun c => pre ++ String.singleton c ++ suf))
    ∧ (addrCandidates base0 base1 charset.toList).length = 32
    ∧ charset.toList.Nodup := by
  refine ⟨List.length_map cs _, h.map (mkCandidate_inj pre suf), ?_, by decide, by decide⟩
  intro i
  simp [addrCandidates]

/-- Witness for C4 at a concrete distinct two-symbol charset. -/
theorem char_completion_source_spec_witness :
    (addrCandidates ("a") ("b") ('x' :: 'y' :: [])).Nodup :=
  (char_completion_source_spec ("a") ("b") ('x' :: 'y' :: []) (by decide)).2.1

/-- C5: for a positive stride the numeric source yields exactly
⌈(stop − start + 1) / step⌉ candidates — written in truncated natural
arithmetic as ((stop + 1 − start) + (step − 1)) / step, which is 0 for an
empty range — in strictly increasing order, the i-th being start + step·i,
all lying between start and stop; the instance scanned by the source code
is exactly the code-id range 1..99; candidates are the decimal renderings
of those integers. -/
theorem numeric_source_count_increasing (start stop step : Nat) (hstep : 1 ≤ step) :
    (numericIds start stop step).length = ((stop + 1 - start) + (step - 1)) / step
    ∧ (numericCandidates start stop step).length =
        ((stop + 1 - start) + (step - 1)) / step
    ∧ List.Pairwise (· < ·) (numericIds start stop step)
    ∧ (∀ i : Nat, i < (numericIds start stop step).length →
        (numericIds start stop step)[i]? = some (start + step * i))
    ∧ (∀ n ∈ numericIds start stop step, start ≤ n ∧ n ≤ stop)
    ∧ numericIds 1 99 1 = codeIdRange
    ∧ numericCandidates start stop step =
        (numericIds start stop step).map (fun n => toString n) := by
  have hlen : (numericIds start stop step).length = (stop + step - start) / step := by
    simp [numericIds]
  have harith : (stop + step - start) / step = ((stop + 1 - start) + (step - 1)) / step := by
    rcases le_or_lt start (stop + 1) with hle | hgt
    · have hnum : stop + step - start = (stop + 1 - start) + (step - 1) := by omega
      rw [hnum]
    · have h1 : stop + step - start < step := by omega
      have h2 : (stop + 1 - start) + (step - 1) < step := by omega
      rw [Nat.div_eq_of_lt h1, Nat.div_eq_of_lt h2]
  refine ⟨hlen.trans harith, by simpa [numericCandidates] using hlen.trans harith,
    List.pairwise_lt_range' start _ step (by omega), ?_, ?_, by decide, rfl⟩
  · intro i hi
    rw [hlen] at hi
    exact List.getElem?_range' start step hi
  · intro n hn
    rw [numericIds, List.mem_range'] at hn
    obtain ⟨i, hi, rfl⟩ := hn
    refine ⟨Nat.le_add_right start (step * i), ?_⟩
    have h1 : step * (i + 1) ≤ step * ((stop + step - start) / step) :=
      Nat.mul_le_mul_left step hi
    have h2 : ((stop + step - start) / step) * step ≤ stop + step - start :=
      Nat.div_mul_le_self (stop + step - start) step
    have h3 : step * i + step ≤ stop + step - start := by
      rw [← Nat.mul_succ]
      calc step * (i + 1) ≤ step * ((stop + step - start) / step) := h1
        _ = ((stop + step - start) / step) * step :=
          Nat.mul_comm step ((stop + step - start) / step)
        _ ≤ stop + step - start := h2
    have hgen : ∀ t : Nat, t + step ≤ stop + step - start → start + t ≤ stop := by
      intro t ht
      omega
    exact hgen (step * i) h3

/-- Witness for C5 at the instance fixed by the source code. -/
theorem numeric_source_count_increasing_witness :
    (numericIds 1 99 1).length = ((99 + 1 - 1) + (1 - 1)) / 1 :=
  (numeric_source_count_increasing 1 99 1 (by decide)).1

/-! Pacing lemmas for the event trace of the numeric scanner. -/

theorem paceFold_none (d : Nat) (l : List Event) :
    List.foldl (paceStep d) none l = none := by
  induction l with
  | nil => rfl
  | cons e es ih =>
    rw [List.foldl_cons]
    rw [show paceStep d none e = none from rfl]
    exact ih

theorem paceStep_request_ok (s : Bool) (a : Nat) (u : String)
    (h : s = true → 500 ≤ a) :
    paceStep 500 (some (s, a)) (Event.request u) = some (true, 0) := by
  rw [show paceStep 500 (some (s, a)) (Event.request u) =
      if s = true ∧ a < 500 then none else some (true, 0) from rfl]
  rw [if_neg]
  rintro ⟨h1, h2⟩
  have := h h1
  omega

theorem scanEvents_no_contract (i : Nat) (r : ScanResp) (h : contractsOf r = []) :
    scanEvents i r = [Event.request (listUrl i)] := by
  cases r with
  | exn => rfl
  | badJson s => rfl
  | parsed cs =>
    cases cs with
    | nil => rfl
    | cons a t => simp [contractsOf] at h

theorem paceFold_no_contract (env : Nat → ScanResp) :
    ∀ ids : List Nat, (∀ i ∈ ids, contractsOf (env i) = []) →
    ∀ (s : Bool) (a : Nat), (s = true → 500 ≤ a) →
    ∃ s' a', List.foldl (paceStep 500) (some (s, a)) (runEvents env ids) = some (s', a')
      ∧ (s' = true → 500 ≤ a') := by
  intro ids
  induction ids with
  | nil =>
    intro _ s a hinv
    exact ⟨s, a, rfl, hinv⟩
  | cons i is ih =>
    intro h s a hinv
    rw [runEvents, scanEvents_no_contract i (env i) (h i (List.mem_cons_self i is))]
    simp only [List.cons_append, List.nil_append, List.foldl_cons]
    rw [paceStep_request_ok s a (listUrl i) hinv]
    rw [show paceStep 500 (some (true, 0)) (Event.sleep 500) = some (true, 500) from rfl]
    exact ih (fun j hj => h j (List.mem_cons_of_mem i hj)) true 500 (fun _ => le_refl 500)

theorem paceFold_double_request (d : Nat) (hd : 0 < d) (u v : String)
    (st : Option (Bool × Nat)) (l : List Event) :
    List.foldl (paceStep d) st (Event.request u :: Event.request v :: l) = none := by
  simp only [List.foldl_cons]
  cases st with
  | none =>
    rw [show paceStep d none (Event.request u) = none from rfl]
    rw [show paceStep d none (Event.request v) = none from rfl]
    exact paceFold_none d l
  | some p =>
    obtain ⟨s, a⟩ := p
    rw [show paceStep d (some (s, a)) (Event.request u) =
        if s = true ∧ a < d then none else some (true, 0) from rfl]
    by_cases hc : s = true ∧ a < d
    · rw [if_pos hc]
      rw [show paceStep d none (Event.request v) = none from rfl]
      exact paceFold_none d l
    · rw [if_neg hc]
      rw [show paceStep d (some (true, 0)) (Event.request v) =
          if true = true ∧ 0 < d then none else some (true, 0) from rfl]
      rw [if_pos ⟨rfl, hd⟩]
      exact paceFold_none d l

theorem paceFold_contract_none (env : Nat → ScanResp) :
    ∀ (ids : List Nat) (st : Option (Bool × Nat)) (i : Nat),
      i ∈ ids → contractsOf (env i) ≠ [] →
      List.foldl (paceStep 500) st (runEvents env ids) = none := by
  intro ids
  induction ids with
  | nil =>
    intro st i hi _
    exact absurd hi (List.not_mem_nil i)
  | cons j js ih =>
    intro st i hi hne
    rw [runEvents]
    rcases List.mem_cons.mp hi with heq | hmem
    · subst heq
      cases hr : env i with
      | exn => rw [hr] at hne; exact absurd rfl hne
      | badJson s => rw [hr] at hne; exact absurd rfl hne
      | parsed cs =>
        cases cs with
        | nil => rw [hr] at hne; exact absurd rfl hne
        | cons a t =>
          simp only [scanEvents, List.cons_append, List.nil_append]
          exact paceFold_double_request 500 (by omega) _ _ st _
    · rw [List.foldl_append, List.foldl_append]
      exact ih _ i hmem hne

/-- C8 counterexample: in the environment where code id 1 resolves to a
contract, the run's event trace contains the contracts-list request and the
contract config request back to back, so the 0.5 s minimum inter-request
delay is violated. -/
theorem inter_request_delay_counterexample :
    minDelayHonored 500 (marketplaceEvents exListEnv) = false := by
  have h := paceFold_contract_none exListEnv codeIdRange (some (false, 0)) 1
    (by decide) (by decide)
  rw [minDelayHonored, marketplaceEvents, h]
  rfl

/-- C8 amended: the `time.sleep(0.5)` runs only between code-id iterations,
so the 0.5 s minimum inter-request delay holds over the whole run exactly
when no scanned code id resolves to a contract; any iteration that does
resolve to a contract issues its two requests with no delay in between. -/
theorem delay_honored_iff_no_contract_query (env : Nat → ScanResp) :
    minDelayHonored 500 (marketplaceEvents env) = true ↔
      ∀ i ∈ codeIdRange, contractsOf (env i) = [] := by
  constructor
  · intro h i hi
    by_contra hne
    have hnone := paceFold_contract_none env codeIdRange (some (false, 0)) i hi hne
    rw [minDelayHonored, marketplaceEvents, hnone] at h
    exact Bool.false_ne_true h
  · intro h
    obtain ⟨s', a', heq, _⟩ :=
      paceFold_no_contract env codeIdRange h false 0 (by simp)
    rw [minDelayHonored, marketplaceEvents, heq]
    rfl

/-- Witness for C8 (amended) at the concrete all-errors environment. -/
theorem delay_honored_iff_witness :
    minDelayHonored 500 (marketplaceEvents (fun _ => ScanResp.exn)) = true :=
  (delay_honored_iff_no_contract_query (fun _ => ScanResp.exn)).mpr (fun _ _ => rfl)

/-- C10: scan mode queries at most one contract per code id — the head of
the contracts list, when present — issues no contract query when the list
is empty or when the request or the parse failed, asks the remote service
for at most one contract via `pagination.limit=1` in the URL, and emits at
most two requests per code id. -/
theorem scan_mode_single_contract (i : Nat) (s a : String) (cs : List String)
    (r : ScanResp) :
    scan_code_id i (ScanResp.parsed cs) = cs.head?
    ∧ scan_code_id i (ScanResp.parsed (a :: cs)) = some a
    ∧ scan_code_id i ScanResp.exn = none
    ∧ scan_code_id i (ScanResp.badJson s) = none
    ∧ (scanEvents i r).length ≤ 2
    ∧ pyIn ("pagination.limit=1") (listUrl i) = true := by
  refine ⟨rfl, rfl, rfl, rfl, ?_, ?_⟩
  · cases r with
    | exn => simp [scanEvents]
    | badJson b => simp [scanEvents]
    | parsed l =>
      cases l with
      | nil => simp [scanEvents]
      | cons x xs => simp [scanEvents]
  · have hsfx : ("pagination.limit=1").toList <:+ ("/contracts?pagination.limit=1").toList :=
      ⟨("/contracts?").toList, by decide⟩
    have hsfx2 : ("/contracts?pagination.limit=1").toList <:+ (listUrl i).toList :=
      ⟨(("https://rest.stargaze-apis.com/cosmwasm/wasm/v1/code/" ++ toString i)).toList, rfl⟩
    exact decide_eq_true (hsfx.trans hsfx2).isInfix

end PosthumanApp
